import Mathlib

/-!
Verification of the waypoint-graph / pathfinding engine and the enemy
behavior state machine of the unfair-boss-chaos game, shallowly embedded
from `src/waypoints.rs` and `src/enemy.rs`.

Modelling conventions:
* `Entity` handles are `Nat`; world positions (`Vec2`, `f32` pairs in the
  source) are pairs of rationals; `f32` weights are rationals.  The source
  never produces NaN in the compared values (all weights are sums of
  distances), so the `partial_cmp(..).unwrap()` calls on weights are modelled
  as a total comparison.
* Engine collaborators are parameters: `rayHit a b` models
  `query_pipeline.cast_ray(..).is_some()` for the segment from `a` to `b`
  (the division by `rapier_params.scale` in the source is a coordinate
  change into the physics world and is absorbed into the collaborator);
  `d` models `Vec2::distance`; `normalize`, `length` and `angleBetween`
  model the corresponding `Vec2` operations.
* Rust panics (`todo!()`, `unwrap()` on `None`) are modelled as
  `Except.error`; normal completion (including an early `return`) is
  `Except.ok`.
* `WaypointEdge` stores `Option<Entity>` in the source but every
  constructed edge wraps `Some`, and every use site unwraps immediately;
  the target is therefore modelled as a plain `Nat`.
-/

namespace UnfairBoss

/-- 2D world position, modelling `bevy::Vec2`. -/
abbrev Vec2 : Type := ℚ × ℚ

/-- Componentwise vector subtraction (`Vec2` subtraction in the source). -/
def vsub (a b : Vec2) : Vec2 := (a.1 - b.1, a.2 - b.2)

/-- Scalar multiplication of a vector (`Vec2 * f32` in the source). -/
def vsmul (c : ℚ) (v : Vec2) : Vec2 := (c * v.1, c * v.2)

/-- The constant `Vec2::X`. -/
def vecX : Vec2 := (1, 0)

/-- Absolute value of a rational, written so that it evaluates by kernel
reduction. -/
def qabs (x : ℚ) : ℚ := if x < 0 then -x else x

/-- A concrete stand-in for the `Vec2::distance` collaborator used by the
witnesses and counterexamples: the taxicab distance.  On axis-aligned pairs
of points (the only pairs the concrete inputs below use) it coincides with
the Euclidean distance computed by the source. -/
def absDist (p q : Vec2) : ℚ := qabs (p.1 - q.1) + qabs (p.2 - q.2)

/-- Total comparison of two rationals, modelling `f32::partial_cmp` followed
by `unwrap` on values that are never NaN. -/
def qcmp (a b : ℚ) : Ordering :=
  if a < b then Ordering.lt else if b < a then Ordering.gt else Ordering.eq

/-- `Waypoint(Vec2, Vec<WaypointEdge>)` from `waypoints.rs`: a position and
an adjacency list of `(neighbor entity, distance)` edges. -/
structure Waypoint where
  pos : Vec2
  edges : List (Nat × ℚ)
deriving DecidableEq, Repr

/-- `CreatePathEvent(Vec2, Vec2, Entity)` from `waypoints.rs`. -/
structure PathEvent where
  src : Vec2
  dst : Vec2
  sender : Nat
deriving DecidableEq, Repr

/-- Accumulator step of `Waypoint::find_nearest` (and the identical
`find_nearest_owned`): keeps the running nearest `(entity, waypoint, dist)`
triple, replacing it only on a strictly smaller distance, so the first
minimum in iteration order wins. -/
def findNearestAux (d : Vec2 → Vec2 → ℚ) (pos : Vec2) :
    List (Waypoint × Nat) → Option (Nat × Waypoint × ℚ) → Option (Nat × Waypoint × ℚ)
  | [], acc => acc
  | (wp, e) :: rest, acc =>
    let dist := d pos wp.pos
    let acc2 :=
      match acc with
      | some (ne, nwp, ndist) =>
        if dist < ndist then some (e, wp, dist) else some (ne, nwp, ndist)
      | none => some (e, wp, dist)
    findNearestAux d pos rest acc2

/-- `Waypoint::find_nearest` from `waypoints.rs`: nearest node of the graph
to a world position, `none` on an empty graph. -/
def find_nearest (d : Vec2 → Vec2 → ℚ) (waypoints : List (Waypoint × Nat)) (pos : Vec2) :
    Option (Waypoint × Nat) :=
  (findNearestAux d pos waypoints none).map (fun t => (t.2.1, t.1))

/-- Lookup in the shared weight table (`HashMap<Entity, f32>`). -/
def wlookup (weights : List (Nat × ℚ)) (k : Nat) : Option ℚ :=
  (weights.find? (fun p => p.1 == k)).map (fun p => p.2)

/-- Overwrite the weight of a key already present in the table. -/
def wupdate (weights : List (Nat × ℚ)) (k : Nat) (v : ℚ) : List (Nat × ℚ) :=
  weights.map (fun p => if p.1 == k then (k, v) else p)

/-- `min_by` of Rust iterators: the first element minimal under `cmp`
(the accumulator is kept unless the comparison says `gt`). -/
def firstMinBy {α : Type} (cmp : α → α → Ordering) : List α → Option α
  | [] => none
  | x :: xs => some (xs.foldl (fun acc y => if cmp acc y = Ordering.gt then y else acc) x)

/-- Comparison of optional weights as in the Dijkstra next-node selection:
`weights.get(e).unwrap_or(&INFINITY)`, so a missing entry is `+inf`. -/
def wcmpInf : Option ℚ → Option ℚ → Ordering
  | none, none => Ordering.eq
  | none, some _ => Ordering.gt
  | some _, none => Ordering.lt
  | some a, some b => qcmp a b

/-- Comparison of optional weights as in the backtracking step:
`weights.get(e1).partial_cmp(&weights.get(e2))` compares `Option<&f32>`,
where `None` is smaller than any `Some`. -/
def wcmpLow : Option ℚ → Option ℚ → Ordering
  | none, none => Ordering.eq
  | none, some _ => Ordering.lt
  | some _, none => Ordering.gt
  | some a, some b => qcmp a b

/-- State of one Dijkstra run in `create_path_event_listener`: the weight
table, the `visited` vector (with duplicates, as in the source), and the
current node. -/
structure DijkstraState where
  weights : List (Nat × ℚ)
  visited : List Nat
  cur : Waypoint × Nat
deriving Repr

/-- The relaxation loop over the current node's edges.  A neighbor already
in `visited` is skipped; otherwise the current node's weight is looked up
(`unwrap`, a panic when absent), and the neighbor entry is created or
lowered.  `entry(..).or_insert(INFINITY)` immediately followed by the
`total_dist < weight` comparison is modelled by inserting `total_dist`
directly when the entry is absent, since a finite sum is always below
`INFINITY`. -/
def relaxAll (curId : Nat) (visited : List Nat) :
    List (Nat × ℚ) → List (Nat × ℚ) → Except String (List (Nat × ℚ))
  | weights, [] => Except.ok weights
  | weights, (tgt, dist) :: rest =>
    if visited.contains tgt then relaxAll curId visited weights rest
    else
      match wlookup weights curId with
      | none => Except.error "panic: unwrap on missing weight"
      | some ourW =>
        let total := dist + ourW
        let weights2 :=
          match wlookup weights tgt with
          | none => weights ++ [(tgt, total)]
          | some w => if total < w then wupdate weights tgt total else weights
        relaxAll curId visited weights2 rest

/-- One iteration of the `while visited.len() < total_wp` loop: relax the
current node's edges, push the current node onto `visited`, and move to the
unvisited node of smallest known weight (missing weights count as infinite;
when no unvisited node remains the current node is kept, as the source's
`if let Some` has no else branch). -/
def dijkstraBody (g : List (Waypoint × Nat)) (st : DijkstraState) :
    Except String DijkstraState :=
  match relaxAll st.cur.2 st.visited st.weights st.cur.1.edges with
  | Except.error m => Except.error m
  | Except.ok weights2 =>
    let visited2 := st.visited ++ [st.cur.2]
    let next := firstMinBy
      (fun a b => wcmpInf (wlookup weights2 a.2) (wlookup weights2 b.2))
      (g.filter (fun p => !(visited2.contains p.2)))
    let cur2 := match next with
      | some n => n
      | none => st.cur
    Except.ok { weights := weights2, visited := visited2, cur := cur2 }

/-- The search loop.  `visited` starts at length 1 and each iteration pushes
exactly one entry, so `while visited.len() < total_wp` runs exactly
`total_wp - 1` times; the loop is modelled by that iteration count. -/
def dijkstraLoop (g : List (Waypoint × Nat)) :
    Nat → DijkstraState → Except String DijkstraState
  | 0, st => Except.ok st
  | n + 1, st =>
    match dijkstraBody g st with
    | Except.error m => Except.error m
    | Except.ok st2 => dijkstraLoop g n st2

/-- The backtracking loop `while our_entity != src_entity`.  Each step takes
the edge whose target has the smallest weight entry (`min_by` over
`Option<&f32>` where a missing entry is least; `unwrap` on an edgeless node
is a panic) and follows it when the target is still in the graph; a failed
graph lookup leaves the loop state unchanged, which in the source loops
forever.  A terminating run visits pairwise distinct nodes, so fuel
`g.length + 1` is exact: running out of fuel models the source hanging and
is reported as an error. -/
def backtrack (g : List (Waypoint × Nat)) (weights : List (Nat × ℚ)) (srcId : Nat) :
    Nat → Waypoint × Nat → List (Waypoint × Nat) → Except String (List (Waypoint × Nat))
  | 0, _, _ => Except.error "divergence: backtracking loop makes no progress"
  | fuel + 1, cur, path =>
    if cur.2 = srcId then Except.ok path
    else
      match firstMinBy
        (fun e1 e2 => wcmpLow (wlookup weights e1.1) (wlookup weights e2.1))
        cur.1.edges with
      | none => Except.error "panic: unwrap on a node with no edges"
      | some nEdge =>
        match g.find? (fun p => p.2 == nEdge.1) with
        | some nxt => backtrack g weights srcId fuel (nxt.1, nEdge.1) (path ++ [(nxt.1, nEdge.1)])
        | none => backtrack g weights srcId fuel cur path

/-- Processing of a single `CreatePathEvent` inside
`create_path_event_listener` (waypoints.rs:200-309): map both endpoints to
their nearest nodes, abort (`ok none`) when either mapping fails or the
source node has no edges, otherwise run Dijkstra from the source over the
whole graph and backtrack from the destination; the result is the command
attaching the destination-to-source path to the sender. -/
def processEvent (d : Vec2 → Vec2 → ℚ) (g : List (Waypoint × Nat)) (ev : PathEvent) :
    Except String (Option (Nat × List (Waypoint × Nat))) :=
  match find_nearest d g ev.src, find_nearest d g ev.dst with
  | none, _ => Except.ok none
  | some _, none => Except.ok none
  | some (srcWp, srcId), some (dstWp, dstId) =>
    if srcWp.edges.isEmpty then Except.ok none
    else
      let st0 : DijkstraState :=
        { weights := [(srcId, 0)], visited := [srcId], cur := (srcWp, srcId) }
      match dijkstraLoop g (g.length - 1) st0 with
      | Except.error m => Except.error m
      | Except.ok st =>
        match backtrack g st.weights srcId (g.length + 1) (dstWp, dstId) [(dstWp, dstId)] with
        | Except.error m => Except.error m
        | Except.ok path =>
          if path.length > 0 then Except.ok (some (ev.sender, path)) else Except.ok none

/-- `create_path_event_listener` over one tick's batch of events.  An
aborted request executes `return`, which exits the whole system: commands
already queued by earlier events of the batch survive, all later events are
dropped.  A panic (`Except.error`) discards the tick. -/
def create_path_event_listener (d : Vec2 → Vec2 → ℚ) (g : List (Waypoint × Nat)) :
    List PathEvent → Except String (List (Nat × List (Waypoint × Nat)))
  | [] => Except.ok []
  | ev :: rest =>
    match processEvent d g ev with
    | Except.error m => Except.error m
    | Except.ok none => Except.ok []
    | Except.ok (some c) =>
      match create_path_event_listener d g rest with
      | Except.error m => Except.error m
      | Except.ok cs => Except.ok (c :: cs)

/-- Application of the queued `insert(WaypointPath(..))` commands to the
per-entity path assignment; a later insert on the same entity overwrites an
earlier one. -/
def apply_path_commands (cmds : List (Nat × List (Waypoint × Nat)))
    (assign : Nat → Option (List (Waypoint × Nat))) : Nat → Option (List (Waypoint × Nat)) :=
  cmds.foldl (fun acc c => fun e => if e = c.1 then some c.2 else acc e) assign

/-- One pass of `iter_combinations_mut` pairing the head node `w` against
every later node (waypoints.rs:161-178): when the ray between the two
positions is unobstructed, a bidirectional edge weighted
`wp2.0.distance(wp1.0)` is pushed onto both adjacency lists. -/
def linkOne (rayHit : Vec2 → Vec2 → Bool) (d : Vec2 → Vec2 → ℚ) :
    Waypoint × Nat → List (Waypoint × Nat) → (Waypoint × Nat) × List (Waypoint × Nat)
  | w, [] => (w, [])
  | w, w2 :: rest =>
    if rayHit w.1.pos w2.1.pos then
      let r := linkOne rayHit d w rest
      (r.1, w2 :: r.2)
    else
      let dist := d w2.1.pos w.1.pos
      let wa : Waypoint × Nat := (⟨w.1.pos, w.1.edges ++ [(w2.2, dist)]⟩, w.2)
      let wb : Waypoint × Nat := (⟨w2.1.pos, w2.1.edges ++ [(w.2, dist)]⟩, w2.2)
      let r := linkOne rayHit d wa rest
      (r.1, wb :: r.2)

/-- The full pair loop: link the head against the tail, then recurse on the
(updated) tail.  `linkOne` preserves list length, so fuel equal to the list
length drives the recursion to completion. -/
def constructEdgesGo (rayHit : Vec2 → Vec2 → Bool) (d : Vec2 → Vec2 → ℚ) :
    Nat → List (Waypoint × Nat) → List (Waypoint × Nat)
  | 0, l => l
  | _ + 1, [] => []
  | n + 1, w :: rest =>
    let r := linkOne rayHit d w rest
    r.1 :: constructEdgesGo rayHit d n r.2

/-- `construct_edges` (waypoints.rs:134-187), past its scheduling guards
(game state and 3-second startup delay, which are not modelled): if no node
has zero edges the system returns unchanged; otherwise every unordered node
pair is evaluated and afterwards every node left with zero edges is
despawned (orphan pruning). -/
def construct_edges (rayHit : Vec2 → Vec2 → Bool) (d : Vec2 → Vec2 → ℚ)
    (nodes : List (Waypoint × Nat)) : List (Waypoint × Nat) :=
  if nodes.all (fun p => !p.1.edges.isEmpty) then nodes
  else (constructEdgesGo rayHit d nodes.length nodes).filter (fun p => !p.1.edges.isEmpty)

/-- The `for (i, (_, path_id)) in path.0.iter().enumerate()` loop of
`set_next_waypoint`: at every index whose entity equals the nearest node's
entity, the waypoint one index earlier (`take(i).last().unwrap()`, a panic
at index 0) is written as the new look-ahead target; a later match
overwrites an earlier one. -/
def snwLoop (nid : Nat) (full : List (Waypoint × Nat)) :
    Nat → List (Waypoint × Nat) → Option Waypoint → Except String (Option Waypoint)
  | _, [], acc => Except.ok acc
  | i, p :: rest, acc =>
    if p.2 = nid then
      match (full.take i).getLast? with
      | none => Except.error "panic: unwrap on an empty prefix"
      | some prev => snwLoop nid full (i + 1) rest (some prev.1)
    else snwLoop nid full (i + 1) rest acc

/-- `set_next_waypoint` (waypoints.rs:313-345) for one agent: find the path
node nearest to the agent (`find_nearest_owned`, identical to
`find_nearest`; `unwrap` on an empty path is a panic), compare its position
with the path's first element and stop when they are equal (arrived),
otherwise run the index loop.  `ok none` means the look-ahead component is
left unchanged, `ok (some wp)` that it is set to `wp`. -/
def set_next_waypoint (d : Vec2 → Vec2 → ℚ) (pos : Vec2)
    (path : List (Waypoint × Nat)) : Except String (Option Waypoint) :=
  match find_nearest d path pos with
  | none => Except.error "panic: unwrap on an empty path"
  | some (nwp, nid) =>
    match path.head? with
    | none => Except.error "panic: unwrap on an empty path head"
    | some first =>
      if nwp.pos = first.1.pos then Except.ok none
      else snwLoop nid path 0 path none

/-- `EnemyState` from `enemy.rs`. -/
inductive EnemyState where
  | IDLE : EnemyState
  | FLEEING : EnemyState
  | CHASING : Option Nat → EnemyState
  | ATTACK : Option Nat → EnemyState
deriving DecidableEq, Repr

/-- The fields of `EnemyParams` the behavior systems read (the defaults in
the source are speed 80, attack_dist 200, visibility_dist 400 and an
irrational rot_offset of -PI/2). -/
structure EnemyParams where
  speed : ℚ
  rot_offset : ℚ
  attack_dist : ℚ
  visibility_dist : ℚ
deriving DecidableEq, Repr

/-- Events emitted by `enemy_state_control`: `CreatePathEvent(pos, player_pos,
entity)` and `ShootEvent(false, pos, dir)`. -/
inductive AIEvent where
  | createPath : Vec2 → Vec2 → Nat → AIEvent
  | shoot : Bool → Vec2 → Vec2 → AIEvent
deriving DecidableEq, Repr

/-- Output of `enemy_movement` for one agent: the linear velocity written to
the rigid body and the rotation written to the body position (kept as an
angle; `none` when the branch leaves the rotation untouched). -/
structure MoveOut where
  linvel : Vec2
  rot : Option ℚ
deriving DecidableEq, Repr

/-- `enemy_movement` (enemy.rs:418-480) for one agent that has a
`NextWaypoint` component (the query skips agents without one).  In
`CHASING(Some(e))` the velocity is always the normalized direction to the
look-ahead waypoint scaled by `speed / scale`; only the facing angle
switches to the player direction when the ray is unobstructed and the
player is within `visibility_dist`.  The target transform lookup is
`unwrap`ped: a missing target is a panic.  In `ATTACK(Some(e))` the
velocity is zero and the agent faces the player.  Every other state zeroes
the velocity. -/
def enemy_movement_step (prm : EnemyParams) (scale : ℚ)
    (normalize : Vec2 → Vec2) (length : Vec2 → ℚ) (angleBetween : Vec2 → Vec2 → ℚ)
    (rayHit : Vec2 → Vec2 → Bool) (lookup : Nat → Option Vec2)
    (pos : Vec2) (nextWp : Vec2) : EnemyState → Except String MoveOut
  | EnemyState.CHASING (some e) =>
    match lookup e with
    | none => Except.error "panic: unwrap on missing player transform"
    | some player_pos =>
      let dir := vsub nextWp pos
      let dir_player := vsub player_pos pos
      let move_delta := vsmul (prm.speed / scale) (normalize dir)
      let angle :=
        if rayHit pos player_pos = false ∧ length dir_player < prm.visibility_dist
        then angleBetween dir_player vecX
        else angleBetween move_delta vecX
      Except.ok { linvel := move_delta, rot := some (prm.rot_offset - angle) }
  | EnemyState.ATTACK (some e) =>
    match lookup e with
    | none => Except.error "panic: unwrap on missing player transform"
    | some player_pos =>
      let dir := vsub player_pos pos
      let move_delta := vsmul (prm.speed / scale) (normalize dir)
      Except.ok { linvel := (0, 0), rot := some (prm.rot_offset - angleBetween move_delta vecX) }
  | _ => Except.ok { linvel := (0, 0), rot := none }

/-- `enemy_state_control` (enemy.rs:508-564) for one agent.
`playerSingle` models `q_player.get_single()` (the player entity when
exactly one exists); `lookup` models `q_player.get(target)` (the source
uses the returned entity, which equals `target`, for the new state).  The
`FLEEING` arm is `todo!()`, a panic.  In `CHASING` a path request is always
emitted and the state becomes `ATTACK` exactly when the distance is below
`attack_dist` and the ray to the player misses; in `ATTACK` a shoot event
is always emitted and the state falls back to `CHASING` when the distance
exceeds `attack_dist` (the source measures this one on the 3D translations,
whose z components the position sync keeps equal).  A failed target lookup
skips the arm, preserving the state. -/
def enemy_state_control_step (prm : EnemyParams) (d : Vec2 → Vec2 → ℚ)
    (rayHit : Vec2 → Vec2 → Bool) (playerSingle : Option Nat) (lookup : Nat → Option Vec2)
    (selfId : Nat) (pos : Vec2) : EnemyState → Except String (EnemyState × List AIEvent)
  | EnemyState.IDLE =>
    match playerSingle with
    | some player => Except.ok (EnemyState.CHASING (some player), [])
    | none => Except.ok (EnemyState.IDLE, [])
  | EnemyState.FLEEING => Except.error "not yet implemented"
  | EnemyState.CHASING (some target) =>
    match lookup target with
    | some player_pos =>
      let dist := d player_pos pos
      let evs := [AIEvent.createPath pos player_pos selfId]
      if dist < prm.attack_dist ∧ rayHit pos player_pos = false
      then Except.ok (EnemyState.ATTACK (some target), evs)
      else Except.ok (EnemyState.CHASING (some target), evs)
    | none => Except.ok (EnemyState.CHASING (some target), [])
  | EnemyState.ATTACK (some target) =>
    match lookup target with
    | some player_pos =>
      let dir := vsub player_pos pos
      let evs := [AIEvent.shoot false pos dir]
      let dist := d player_pos pos
      if dist > prm.attack_dist
      then Except.ok (EnemyState.CHASING (some target), evs)
      else Except.ok (EnemyState.ATTACK (some target), evs)
    | none => Except.ok (EnemyState.ATTACK (some target), [])
  | st => Except.ok (st, [])

/-- Symmetry-with-correct-weights property of a waypoint graph: every edge
has a reverse edge of the same weight, and that weight is the distance
between the two endpoints' positions. -/
def edge_symm_ok (d : Vec2 → Vec2 → ℚ) (ns : List (Waypoint × Nat)) : Prop :=
  ∀ wp a, (wp, a) ∈ ns → ∀ e ∈ wp.edges,
    ∃ wp2, (wp2, e.1) ∈ ns ∧ (a, e.2) ∈ wp2.edges ∧ e.2 = d wp.pos wp2.pos

/-- A ray that never hits anything (fully open scene). -/
def noHit : Vec2 → Vec2 → Bool := fun _ _ => false

/-- A player lookup that always fails (the target entity was destroyed). -/
def noLookup : Nat → Option Vec2 := fun _ => none

/-- Node A of the three-node example graph: edges A-B(10) and A-C(30). -/
def wpA : Waypoint := ⟨(0, 0), [(1, 10), (2, 30)]⟩

/-- Node B of the three-node example graph: edges B-A(10) and B-C(10). -/
def wpB : Waypoint := ⟨(0, 1), [(0, 10), (2, 10)]⟩

/-- Node C of the three-node example graph: edges C-A(30) and C-B(10). -/
def wpC : Waypoint := ⟨(0, 2), [(0, 30), (1, 10)]⟩

/-- The example graph with edges A-B(10), B-C(10), A-C(30). -/
def exGraph : List (Waypoint × Nat) := [(wpA, 0), (wpB, 1), (wpC, 2)]

/-- A path request from A's position to C's position by entity 99. -/
def exEvent : PathEvent := ⟨(0, 0), (0, 2), 99⟩

/-- Enemy parameters with the source's rational defaults (speed 80,
attack_dist 200, visibility_dist 400) and rot_offset 0. -/
def exParams : EnemyParams := ⟨80, 0, 200, 400⟩

/-- Concrete `Vec2::normalize` stand-in: agrees with the exact Euclidean
normalization at the input (30, 40) used by the movement counterexample. -/
def exNormalize : Vec2 → Vec2 := fun v => (v.1 / 50, v.2 / 50)

/-- Concrete `Vec2::length` stand-in: agrees with the Euclidean length at
the axis-aligned inputs used below. -/
def exLength : Vec2 → ℚ := fun v => qabs v.1 + qabs v.2

/-- Concrete `angle_between` stand-in (the counterexample only needs the
velocity, not a particular angle value). -/
def exAngle : Vec2 → Vec2 → ℚ := fun _ _ => 0

/-- Player lookup placing the single player (entity 7) at (0, 100). -/
def exLookup : Nat → Option Vec2 := fun e => if e = 7 then some (0, 100) else none

/-- Player lookup placing the player (entity 7) at (199, 0): at distance
attack_dist - 1 from the origin. -/
def exLookup199 : Nat → Option Vec2 := fun e => if e = 7 then some (199, 0) else none

/-- Two mutually visible nodes with no edges yet, for the symmetry witness. -/
def exNodes2 : List (Waypoint × Nat) := [(⟨(0, 0), []⟩, 0), (⟨(0, 3), []⟩, 1)]

/-- Three edgeless nodes of which the third is hidden from the others, for
the orphan-pruning witness. -/
def exNodes3 : List (Waypoint × Nat) :=
  [(⟨(0, 0), []⟩, 0), (⟨(0, 3), []⟩, 1), (⟨(5, 5), []⟩, 2)]

/-- A ray cast that hits exactly when one endpoint is the obstacle corner
(5, 5): node 2 of `exNodes3` is invisible to the other nodes. -/
def hitAt55 : Vec2 → Vec2 → Bool := fun p q => p == ((5 : ℚ), (5 : ℚ)) || q == ((5 : ℚ), (5 : ℚ))

/-- An isolated single-node graph: the nearest source node has no edges. -/
def exIsolated : List (Waypoint × Nat) := [(⟨(0, 0), []⟩, 0)]

/-- A graph whose node 0 is isolated while nodes 1 and 2 are connected. -/
def exMixedGraph : List (Waypoint × Nat) :=
  [(⟨(0, 0), []⟩, 0), (⟨(10, 0), [(2, 1)]⟩, 1), (⟨(11, 0), [(1, 1)]⟩, 2)]

/-- A request whose source maps to the isolated node 0 of `exMixedGraph`. -/
def exBadEvent : PathEvent := ⟨(0, 0), (11, 0), 50⟩

/-- A request between the connected nodes of `exMixedGraph`. -/
def exGoodEvent : PathEvent := ⟨(10, 0), (11, 0), 51⟩

/-- A three-node computed path (destination first) for the look-ahead
witness. -/
def exPath : List (Waypoint × Nat) :=
  [(⟨(0, 10), []⟩, 3), (⟨(0, 5), []⟩, 4), (⟨(0, 0), []⟩, 5)]

end UnfairBoss

namespace UnfairBoss

theorem processEvent_aborts (d : Vec2 → Vec2 → ℚ) (g : List (Waypoint × Nat)) (ev : PathEvent)
    (h : find_nearest d g ev.src = none ∨ find_nearest d g ev.dst = none ∨
      ∃ wp e, find_nearest d g ev.src = some (wp, e) ∧ wp.edges = []) :
    processEvent d g ev = Except.ok none := by
  rcases h with h | h | ⟨wp, e, hs, he⟩
  · simp [processEvent, h]
  · rcases hs : find_nearest d g ev.src with _ | ⟨wps, es⟩ <;>
      simp [processEvent, h, hs]
  · rcases hd2 : find_nearest d g ev.dst with _ | ⟨wpd, ed⟩ <;>
      simp [processEvent, hs, hd2, he]

unseal Rat.add Rat.sub Rat.mul Rat.inv in
/-- C1: On the graph with edges A-B(10), B-C(10), A-C(30), a path request
from A's position to C's position does NOT attach the path A→B→C (stored
destination-to-source as node ids [2, 1, 0]): the attached path is the
direct A-C edge, stored as [C, A]. -/
theorem create_path_direct_edge_counterexample :
    create_path_event_listener absDist exGraph [exEvent] =
      Except.ok [(99, [(wpC, 2), (wpA, 0)])] ∧
    [(wpC, 2), (wpA, 0)].map Prod.snd ≠ [2, 1, 0] := by
  exact ⟨rfl, by decide⟩

unseal Rat.add Rat.sub Rat.mul Rat.inv in
/-- C1 (amended): on the A-B(10)/B-C(10)/A-C(30) graph a request from A to
C attaches the direct-edge path C→A (total edge weight 30): the
backtracking step follows the edge whose target has the smallest computed
source distance, which here is A itself, so the materialized path is not
the route of smallest total edge weight. -/
theorem create_path_greedy_backtrack :
    ∃ p, create_path_event_listener absDist exGraph [exEvent] = Except.ok [(99, p)] ∧
      p.map Prod.snd = [2, 0] :=
  ⟨[(wpC, 2), (wpA, 0)], rfl, rfl⟩

unseal Rat.add Rat.sub Rat.mul Rat.inv in
/-- C2: With the target visible (no ray hit) and within visibility_dist,
the chasing agent's velocity is still the scaled normalized direction to
the look-ahead waypoint (30, 40), namely (12/5, 16/5), and that velocity is
not a positive multiple of the direction to the target at (0, 100): the
movement is not directed toward the target. -/
theorem chasing_velocity_counterexample :
    enemy_movement_step exParams 20 exNormalize exLength exAngle noHit exLookup (0, 0) (30, 40)
        (EnemyState.CHASING (some 7)) =
      Except.ok { linvel := (12/5, 16/5), rot := some 0 } ∧
    (noHit (0, 0) (0, 100) = false ∧
      exLength (vsub (0, 100) (0, 0)) < exParams.visibility_dist) ∧
    ¬ ∃ c : ℚ, 0 < c ∧ ((12/5 : ℚ), (16/5 : ℚ)) = vsmul c (vsub (0, 100) (0, 0)) := by
  refine ⟨rfl, by decide, ?_⟩
  rintro ⟨c, hc, h⟩
  simp only [vsmul, vsub, Prod.mk.injEq] at h
  rcases h with ⟨h1, h2⟩
  norm_num at h1

/-- C2 (amended): while an agent is Chasing a target that still exists, its
velocity is always directed toward the look-ahead waypoint — it equals
normalize(waypoint - pos) scaled by speed/scale regardless of target
visibility; the visibility test (unobstructed ray and target within
visibility_dist) only selects whether the facing angle tracks the target
direction or the movement direction. -/
theorem chasing_velocity_toward_waypoint (prm : EnemyParams) (scale : ℚ)
    (normalize : Vec2 → Vec2) (length : Vec2 → ℚ) (angleBetween : Vec2 → Vec2 → ℚ)
    (rayHit : Vec2 → Vec2 → Bool) (lookup : Nat → Option Vec2)
    (pos wp ppos : Vec2) (t : Nat) (h : lookup t = some ppos) :
    enemy_movement_step prm scale normalize length angleBetween rayHit lookup pos wp
        (EnemyState.CHASING (some t)) =
      Except.ok (MoveOut.mk (vsmul (prm.speed / scale) (normalize (vsub wp pos)))
        (some (prm.rot_offset -
          (if rayHit pos ppos = false ∧ length (vsub ppos pos) < prm.visibility_dist
           then angleBetween (vsub ppos pos) vecX
           else angleBetween (vsmul (prm.speed / scale) (normalize (vsub wp pos))) vecX)))) := by
  simp [enemy_movement_step, h]

theorem chasing_velocity_toward_waypoint_witness :
    exLookup 7 = some (0, 100) ∧
    enemy_movement_step exParams 20 exNormalize exLength exAngle noHit exLookup (0, 0) (30, 40)
        (EnemyState.CHASING (some 7)) =
      Except.ok (MoveOut.mk (vsmul (exParams.speed / 20) (exNormalize (vsub (30, 40) (0, 0))))
        (some (exParams.rot_offset -
          (if noHit (0, 0) (0, 100) = false ∧
              exLength (vsub (0, 100) (0, 0)) < exParams.visibility_dist
           then exAngle (vsub (0, 100) (0, 0)) vecX
           else exAngle (vsmul (exParams.speed / 20) (exNormalize (vsub (30, 40) (0, 0)))) vecX)))) :=
  ⟨rfl, chasing_velocity_toward_waypoint exParams 20 exNormalize exLength exAngle noHit exLookup
    (0, 0) (30, 40) (0, 100) 7 rfl⟩

/-- C3: An agent in the Fleeing state makes the per-tick state-machine
evaluation panic: the FLEEING arm of enemy_state_control is todo!(), which
crashes the simulation instead of being a logged no-op. -/
theorem fleeing_state_panics :
    enemy_state_control_step exParams absDist noHit none exLookup 5 (0, 0) EnemyState.FLEEING =
      Except.error "not yet implemented" := rfl

/-- C4: When the chased/attacked target entity no longer exists, the
state-control system does skip the tick and preserves the state (first two
conjuncts), but the movement system unwraps the failed transform lookup and
panics (third conjunct) — the tick is not skipped without panicking. -/
theorem stale_target_eval :
    enemy_state_control_step exParams absDist noHit none noLookup 5 (0, 0)
        (EnemyState.CHASING (some 7)) = Except.ok (EnemyState.CHASING (some 7), []) ∧
    enemy_state_control_step exParams absDist noHit none noLookup 5 (0, 0)
        (EnemyState.ATTACK (some 7)) = Except.ok (EnemyState.ATTACK (some 7), []) ∧
    enemy_movement_step exParams 20 exNormalize exLength exAngle noHit noLookup (0, 0) (30, 40)
        (EnemyState.CHASING (some 7)) =
      Except.error "panic: unwrap on missing player transform" :=
  ⟨rfl, rfl, rfl⟩

/-- C7: A chasing agent whose target lookup succeeds transitions to
Attacking(target) on this tick exactly when its distance to the target is
below attack_dist and the direct ray between them is unobstructed; in every
case the path-request event is emitted and no panic occurs. -/
theorem chasing_to_attack_iff (prm : EnemyParams) (d : Vec2 → Vec2 → ℚ)
    (rayHit : Vec2 → Vec2 → Bool) (playerSingle : Option Nat) (lookup : Nat → Option Vec2)
    (selfId : Nat) (pos : Vec2) (t : Nat) (ppos : Vec2) (h : lookup t = some ppos) :
    (enemy_state_control_step prm d rayHit playerSingle lookup selfId pos
        (EnemyState.CHASING (some t)) =
      Except.ok (EnemyState.ATTACK (some t), [AIEvent.createPath pos ppos selfId]))
    ↔ (d ppos pos < prm.attack_dist ∧ rayHit pos ppos = false) := by
  by_cases hc : d ppos pos < prm.attack_dist ∧ rayHit pos ppos = false
  · simp [enemy_state_control_step, h, hc]
  · simp [enemy_state_control_step, h, hc]

unseal Rat.add Rat.sub Rat.mul Rat.inv in
theorem chasing_to_attack_iff_witness :
    exLookup199 7 = some (199, 0) ∧
    enemy_state_control_step exParams absDist noHit none exLookup199 5 (0, 0)
        (EnemyState.CHASING (some 7)) =
      Except.ok (EnemyState.ATTACK (some 7), [AIEvent.createPath (0, 0) (199, 0) 5]) :=
  ⟨rfl, (chasing_to_attack_iff exParams absDist noHit none exLookup199 5 (0, 0) 7 (199, 0)
    rfl).mpr (by decide)⟩

/-- C8: A path request whose source or destination has no nearest node
(empty graph), or whose nearest source node has zero edges, produces no
path-attachment command and no panic, and every previously attached path is
left unchanged. -/
theorem path_request_soft_failure (d : Vec2 → Vec2 → ℚ) (g : List (Waypoint × Nat))
    (ev : PathEvent)
    (h : find_nearest d g ev.src = none ∨ find_nearest d g ev.dst = none ∨
      ∃ wp e, find_nearest d g ev.src = some (wp, e) ∧ wp.edges = []) :
    create_path_event_listener d g [ev] = Except.ok [] ∧
    ∀ assign x, apply_path_commands [] assign x = assign x := by
  refine ⟨?_, fun assign x => rfl⟩
  have hp := processEvent_aborts d g ev h
  simp [create_path_event_listener, hp]

unseal Rat.add Rat.sub Rat.mul Rat.inv in
theorem path_request_soft_failure_witness :
    (∃ wp e, find_nearest absDist exIsolated ((0 : ℚ), (0 : ℚ)) = some (wp, e) ∧
      wp.edges = []) ∧
    create_path_event_listener absDist exIsolated [⟨(0, 0), (9, 9), 42⟩] = Except.ok [] ∧
    ∀ assign x, apply_path_commands [] assign x = assign x :=
  ⟨⟨⟨(0, 0), []⟩, 0, rfl, rfl⟩,
    path_request_soft_failure absDist exIsolated ⟨(0, 0), (9, 9), 42⟩
      (Or.inr (Or.inr ⟨⟨(0, 0), []⟩, 0, rfl, rfl⟩))⟩

/-- C10: When the first request of a tick's batch aborts (failed nearest
mapping or isolated source node), the listener executes return and exits:
every later request of the batch is dropped unprocessed, so no command at
all is produced. -/
theorem path_request_batch_abort (d : Vec2 → Vec2 → ℚ) (g : List (Waypoint × Nat))
    (ev : PathEvent) (rest : List PathEvent)
    (h : find_nearest d g ev.src = none ∨ find_nearest d g ev.dst = none ∨
      ∃ wp e, find_nearest d g ev.src = some (wp, e) ∧ wp.edges = []) :
    create_path_event_listener d g (ev :: rest) = Except.ok [] := by
  have hp := processEvent_aborts d g ev h
  simp [create_path_event_listener, hp]

unseal Rat.add Rat.sub Rat.mul Rat.inv in
theorem path_request_batch_abort_witness :
    (∃ wp e, find_nearest absDist exMixedGraph exBadEvent.src = some (wp, e) ∧
      wp.edges = []) ∧
    create_path_event_listener absDist exMixedGraph [exBadEvent, exGoodEvent] = Except.ok [] ∧
    create_path_event_listener absDist exMixedGraph [exGoodEvent] =
      Except.ok [(51, [(⟨(11, 0), [(1, 1)]⟩, 2), (⟨(10, 0), [(2, 1)]⟩, 1)])] :=
  ⟨⟨⟨(0, 0), []⟩, 0, rfl, rfl⟩,
    path_request_batch_abort absDist exMixedGraph exBadEvent [exGoodEvent]
      (Or.inr (Or.inr ⟨⟨(0, 0), []⟩, 0, rfl, rfl⟩)),
    rfl⟩

/-- C6: Every node present after a run of construct_edges has a nonempty
adjacency list: orphan pruning removes every zero-edge node. -/
theorem construct_edges_orphan_pruning (rayHit : Vec2 → Vec2 → Bool) (d : Vec2 → Vec2 → ℚ)
    (ns : List (Waypoint × Nat)) (wp : Waypoint) (a : Nat)
    (h : (wp, a) ∈ construct_edges rayHit d ns) : wp.edges ≠ [] := by
  unfold construct_edges at h
  split at h
  next hg =>
    have h2 := List.all_eq_true.mp hg (wp, a) h
    intro hnil
    rw [hnil] at h2
    simp at h2
  next =>
    have h2 := (List.mem_filter.mp h).2
    intro hnil
    rw [hnil] at h2
    simp at h2

unseal Rat.add Rat.sub Rat.mul Rat.inv in
theorem construct_edges_orphan_pruning_witness :
    ((⟨(0, 0), [(1, 3)]⟩ : Waypoint), 0) ∈ construct_edges hitAt55 absDist exNodes3 ∧
    (⟨(0, 0), [(1, 3)]⟩ : Waypoint).edges ≠ [] :=
  ⟨by decide, construct_edges_orphan_pruning hitAt55 absDist exNodes3 ⟨(0, 0), [(1, 3)]⟩ 0
    (by decide)⟩

end UnfairBoss

namespace UnfairBoss

theorem linkOne_spec (rayHit : Vec2 → Vec2 → Bool) (d : Vec2 → Vec2 → ℚ)
    (w : Waypoint × Nat) (l : List (Waypoint × Nat)) :
    linkOne rayHit d w l =
      ((⟨w.1.pos, w.1.edges ++ l.filterMap (fun w2 =>
          if rayHit w.1.pos w2.1.pos then none
          else some (w2.2, d w2.1.pos w.1.pos))⟩, w.2),
       l.map (fun w2 =>
          if rayHit w.1.pos w2.1.pos then w2
          else (⟨w2.1.pos, w2.1.edges ++ [(w.2, d w2.1.pos w.1.pos)]⟩, w2.2))) := by
  induction l generalizing w with
  | nil => simp [linkOne]
  | cons w2 rest ih =>
    by_cases hr : rayHit w.1.pos w2.1.pos
    · simp [linkOne, hr, ih]
    · simp [linkOne, hr, ih, List.filterMap_cons, List.append_assoc]

theorem linkOne_len (rayHit : Vec2 → Vec2 → Bool) (d : Vec2 → Vec2 → ℚ)
    (w : Waypoint × Nat) (l : List (Waypoint × Nat)) :
    (linkOne rayHit d w l).2.length = l.length := by
  rw [linkOne_spec]
  simp

theorem edge_symm_step (rayHit : Vec2 → Vec2 → Bool) (d : Vec2 → Vec2 → ℚ)
    (hd : ∀ p q, d p q = d q p) (F : List (Waypoint × Nat)) (w : Waypoint × Nat)
    (rest : List (Waypoint × Nat))
    (h : edge_symm_ok d (F ++ w :: rest)) :
    edge_symm_ok d (F ++ (linkOne rayHit d w rest).1 :: (linkOne rayHit d w rest).2) := by
  rw [linkOne_spec]
  set outs := rest.filterMap (fun w2 =>
    if rayHit w.1.pos w2.1.pos then none else some (w2.2, d w2.1.pos w.1.pos)) with houts
  set recv := fun (w2 : Waypoint × Nat) =>
    if rayHit w.1.pos w2.1.pos then w2
    else ((⟨w2.1.pos, w2.1.edges ++ [(w.2, d w2.1.pos w.1.pos)]⟩ : Waypoint), w2.2) with hrecv
  set newW : Waypoint × Nat := (⟨w.1.pos, w.1.edges ++ outs⟩, w.2) with hnewW
  -- transport of old members into the new list
  have htrans : ∀ wp2 b, (wp2, b) ∈ F ++ w :: rest →
      ∃ wp3, (wp3, b) ∈ F ++ newW :: rest.map recv ∧ wp3.pos = wp2.pos ∧
        ∀ e ∈ wp2.edges, e ∈ wp3.edges := by
    intro wp2 b hb
    rcases List.mem_append.mp hb with hb | hb
    · exact ⟨wp2, List.mem_append_left _ hb, rfl, fun e he => he⟩
    · rcases List.mem_cons.mp hb with hb | hb
      · refine ⟨newW.1, List.mem_append_right _ (by
          have : (newW.1, newW.2) = newW := rfl
          rw [show b = newW.2 from by rw [hnewW]; exact congrArg Prod.snd hb]
          rw [this]
          exact List.mem_cons_self _ _), ?_, ?_⟩
        · rw [hnewW]
          have := congrArg Prod.fst hb
          simp at this
          rw [this]
        · intro e he
          have := congrArg Prod.fst hb
          simp at this
          rw [hnewW]
          simp
          left
          rw [← this]
          exact he
      · by_cases hr : rayHit w.1.pos wp2.pos
        · refine ⟨wp2, List.mem_append_right _ (List.mem_cons_of_mem _ ?_), rfl, fun e he => he⟩
          have : recv (wp2, b) = (wp2, b) := by rw [hrecv]; simp [hr]
          rw [← this]
          exact List.mem_map_of_mem recv hb
        · refine ⟨⟨wp2.pos, wp2.edges ++ [(w.2, d wp2.pos w.1.pos)]⟩,
            List.mem_append_right _ (List.mem_cons_of_mem _ ?_), rfl, fun e he => by simp [he]⟩
          have : recv (wp2, b) =
              (⟨wp2.pos, wp2.edges ++ [(w.2, d wp2.pos w.1.pos)]⟩, b) := by
            rw [hrecv]; simp [hr]
          rw [← this]
          exact List.mem_map_of_mem recv hb
  intro wp a ha e he
  rcases List.mem_append.mp ha with ha | ha
  · -- old node in the frame
    obtain ⟨wp2, h2mem, h2e, hw⟩ := h wp a (List.mem_append_left _ ha) e he
    obtain ⟨wp3, h3mem, h3pos, h3sub⟩ := htrans wp2 e.1 h2mem
    exact ⟨wp3, h3mem, h3sub _ h2e, by rw [hw, h3pos]⟩
  · rcases List.mem_cons.mp ha with ha | ha
    · -- the updated head node
      have hwp : wp = newW.1 := congrArg Prod.fst ha
      have haw : a = w.2 := by
        have := congrArg Prod.snd ha
        rw [hnewW] at this
        exact this
      rw [hwp, hnewW] at he
      simp at he
      rcases he with he | he
      · -- an edge the head already had
        obtain ⟨wp2, h2mem, h2e, hw⟩ :=
          h w.1 w.2 (List.mem_append_right _ (by
            have : (w.1, w.2) = w := rfl
            rw [this]
            exact List.mem_cons_self _ _)) e he
        obtain ⟨wp3, h3mem, h3pos, h3sub⟩ := htrans wp2 e.1 h2mem
        refine ⟨wp3, h3mem, by rw [haw]; exact h3sub _ h2e, ?_⟩
        rw [hw, h3pos, hwp, hnewW]
      · -- a new outgoing edge added by this pass
        rw [houts] at he
        obtain ⟨w2, hw2rest, hsome⟩ := List.mem_filterMap.mp he
        by_cases hr : rayHit w.1.pos w2.1.pos
        · rw [if_pos hr] at hsome; exact absurd hsome (by simp)
        · rw [if_neg hr] at hsome
          have he2 : e = (w2.2, d w2.1.pos w.1.pos) := by
            injection hsome with h1
            exact h1.symm
          refine ⟨⟨w2.1.pos, w2.1.edges ++ [(w.2, d w2.1.pos w.1.pos)]⟩,
            List.mem_append_right _ (List.mem_cons_of_mem _ ?_), ?_, ?_⟩
          · have : recv w2 = (⟨w2.1.pos, w2.1.edges ++ [(w.2, d w2.1.pos w.1.pos)]⟩, w2.2) := by
              rw [hrecv]; simp [hr]
            have hmm := List.mem_map_of_mem recv hw2rest
            rw [this] at hmm
            rw [he2]
            exact hmm
          · rw [he2, haw]
            simp
          · rw [he2, hwp, hnewW]
            simp
            exact hd w2.1.pos w.1.pos
    · -- a node of the tail, possibly updated
      obtain ⟨w2, hw2rest, heq⟩ := List.mem_map.mp ha
      by_cases hr : rayHit w.1.pos w2.1.pos
      · have hsame : (wp, a) = w2 := by rw [← heq, hrecv]; simp [hr]
        obtain ⟨wp2, h2mem, h2e, hw⟩ :=
          h wp a (List.mem_append_right _ (List.mem_cons_of_mem _ (by rw [hsame]; exact hw2rest))) e he
        obtain ⟨wp3, h3mem, h3pos, h3sub⟩ := htrans wp2 e.1 h2mem
        exact ⟨wp3, h3mem, h3sub _ h2e, by rw [hw, h3pos]⟩
      · have hpair : recv w2 = (⟨w2.1.pos, w2.1.edges ++ [(w.2, d w2.1.pos w.1.pos)]⟩, w2.2) := by
          rw [hrecv]; simp [hr]
        rw [hpair] at heq
        have hwp : wp = ⟨w2.1.pos, w2.1.edges ++ [(w.2, d w2.1.pos w.1.pos)]⟩ :=
          (congrArg Prod.fst heq).symm
        have haw : a = w2.2 := (congrArg Prod.snd heq).symm
        rw [hwp] at he
        simp at he
        rcases he with he | he
        · -- an edge the tail node already had
          obtain ⟨wp2, h2mem, h2e, hw⟩ :=
            h w2.1 w2.2 (List.mem_append_right _ (List.mem_cons_of_mem _ (by
              have : (w2.1, w2.2) = w2 := rfl
              rw [this]; exact hw2rest))) e he
          obtain ⟨wp3, h3mem, h3pos, h3sub⟩ := htrans wp2 e.1 h2mem
          refine ⟨wp3, h3mem, by rw [haw]; exact h3sub _ h2e, ?_⟩
          rw [hw, h3pos, hwp]
        · -- the new incoming edge from the head
          refine ⟨newW.1, List.mem_append_right _ (by
            rw [show e.1 = newW.2 from by rw [he, hnewW]]
            have : (newW.1, newW.2) = newW := rfl
            rw [this]
            exact List.mem_cons_self _ _), ?_, ?_⟩
          · rw [haw]
            have hne : (newW.1).edges = w.1.edges ++ outs := by rw [hnewW]
            rw [hne]
            refine List.mem_append_right _ ?_
            rw [houts]
            exact List.mem_filterMap.mpr ⟨w2, hw2rest, by rw [if_neg hr, he]⟩
          · rw [he, hwp, hnewW]

end UnfairBoss

namespace UnfairBoss

theorem constructEdgesGo_symm (rayHit : Vec2 → Vec2 → Bool) (d : Vec2 → Vec2 → ℚ)
    (hd : ∀ p q, d p q = d q p) :
    ∀ (n : Nat) (l F : List (Waypoint × Nat)), l.length ≤ n →
      edge_symm_ok d (F ++ l) → edge_symm_ok d (F ++ constructEdgesGo rayHit d n l) := by
  intro n
  induction n with
  | zero =>
    intro l F hlen h
    simpa [constructEdgesGo] using h
  | succ n ih =>
    intro l F hlen h
    cases l with
    | nil => simpa [constructEdgesGo] using h
    | cons w rest =>
      have hstep := edge_symm_step rayHit d hd F w rest h
      have hlen2 : (linkOne rayHit d w rest).2.length ≤ n := by
        rw [linkOne_len]
        exact Nat.le_of_succ_le_succ (by simpa using hlen)
      have hrec := ih (linkOne rayHit d w rest).2 (F ++ [(linkOne rayHit d w rest).1]) hlen2
        (by simpa [List.append_assoc] using hstep)
      have hgo : constructEdgesGo rayHit d (n + 1) (w :: rest) =
          (linkOne rayHit d w rest).1 :: constructEdgesGo rayHit d n (linkOne rayHit d w rest).2 := by
        simp [constructEdgesGo]
      rw [hgo]
      simpa [List.append_assoc] using hrec

theorem edge_symm_filter (d : Vec2 → Vec2 → ℚ) (ns : List (Waypoint × Nat))
    (h : edge_symm_ok d ns) :
    edge_symm_ok d (ns.filter (fun p => !p.1.edges.isEmpty)) := by
  intro wp a ha e he
  obtain ⟨hmem, _⟩ := List.mem_filter.mp ha
  obtain ⟨wp2, h2mem, h2e, hw⟩ := h wp a hmem e he
  refine ⟨wp2, List.mem_filter.mpr ⟨h2mem, ?_⟩, h2e, hw⟩
  cases hh : wp2.edges with
  | nil => rw [hh] at h2e; exact absurd h2e (List.not_mem_nil _)
  | cons x xs => simp [hh]

/-- C5: After a run of edge construction from the spawned all-empty
adjacency state, the waypoint graph is edge-symmetric: whenever a node A
carries an edge to a node B, B carries an edge back to A with the same
weight, and that weight is the distance between the two nodes' positions
(stated for any symmetric distance collaborator, of which the source's
Euclidean `Vec2::distance` is one). -/
theorem construct_edges_edge_symmetry (rayHit : Vec2 → Vec2 → Bool) (d : Vec2 → Vec2 → ℚ)
    (ns : List (Waypoint × Nat)) (hd : ∀ p q, d p q = d q p)
    (h0 : ∀ wp a, (wp, a) ∈ ns → wp.edges = []) :
    edge_symm_ok d (construct_edges rayHit d ns) := by
  have hinit : edge_symm_ok d ns := by
    intro wp a ha e he
    rw [h0 wp a ha] at he
    exact absurd he (List.not_mem_nil e)
  unfold construct_edges
  split
  · exact hinit
  · refine edge_symm_filter d _ ?_
    have := constructEdgesGo_symm rayHit d hd ns.length ns [] le_rfl (by simpa using hinit)
    simpa using this

theorem qabs_sub_comm (x y : ℚ) : qabs (x - y) = qabs (y - x) := by
  unfold qabs
  rcases lt_trichotomy x y with h | h | h
  · rw [if_pos (by linarith), if_neg (by linarith)]
    ring
  · subst h
    simp
  · rw [if_neg (by linarith), if_pos (by linarith)]
    ring

theorem absDist_comm (p q : Vec2) : absDist p q = absDist q p := by
  unfold absDist
  rw [qabs_sub_comm p.1 q.1, qabs_sub_comm p.2 q.2]

theorem construct_edges_edge_symmetry_witness :
    (∀ wp a, (wp, a) ∈ exNodes2 → wp.edges = []) ∧
    edge_symm_ok absDist (construct_edges noHit absDist exNodes2) := by
  have h0 : ∀ wp a, (wp, a) ∈ exNodes2 → wp.edges = [] := by
    intro wp a hmem
    simp [exNodes2] at hmem
    rcases hmem with ⟨h1, h2⟩ | ⟨h1, h2⟩ <;> rw [h1]
  exact ⟨h0, construct_edges_edge_symmetry noHit absDist exNodes2 absDist_comm h0⟩

end UnfairBoss

namespace UnfairBoss

theorem getLast?_take_succ (l : List (Waypoint × Nat)) (j : Nat) (w : Waypoint × Nat)
    (h : l[j]? = some w) : (l.take (j + 1)).getLast? = some w := by
  rw [List.take_succ, h]
  simp [List.getLast?_concat]

theorem snwLoop_nomatch (nid : Nat) (full : List (Waypoint × Nat)) :
    ∀ (l : List (Waypoint × Nat)) (k : Nat) (acc : Option Waypoint),
      (∀ p ∈ l, p.2 ≠ nid) → snwLoop nid full k l acc = Except.ok acc := by
  intro l
  induction l with
  | nil => intro k acc h; rfl
  | cons p rest ih =>
    intro k acc h
    rw [snwLoop, if_neg (h p (List.mem_cons_self _ _))]
    exact ih (k + 1) acc (fun q hq => h q (List.mem_cons_of_mem _ hq))

theorem snwLoop_found (nid : Nat) (full : List (Waypoint × Nat)) (x prev : Waypoint × Nat) :
    ∀ (l1 l2 : List (Waypoint × Nat)) (k : Nat) (acc : Option Waypoint),
      x.2 = nid → (∀ p ∈ l1, p.2 ≠ nid) → (∀ p ∈ l2, p.2 ≠ nid) →
      (full.take (k + l1.length)).getLast? = some prev →
      snwLoop nid full k (l1 ++ x :: l2) acc = Except.ok (some prev.1) := by
  intro l1
  induction l1 with
  | nil =>
    intro l2 k acc hx h1 h2 hlast
    rw [List.length_nil, Nat.add_zero] at hlast
    rw [List.nil_append, snwLoop, if_pos hx, hlast]
    exact snwLoop_nomatch nid full l2 (k + 1) (some prev.1) h2
  | cons p l1 ih =>
    intro l2 k acc hx h1 h2 hlast
    rw [List.cons_append, snwLoop, if_neg (h1 p (List.mem_cons_self _ _))]
    refine ih l2 (k + 1) acc hx (fun q hq => h1 q (List.mem_cons_of_mem _ hq)) h2 ?_
    have harith : k + 1 + l1.length = k + (p :: l1).length := by
      simp [List.length_cons]
      omega
    rw [harith]
    exact hlast

/-- C9: For an agent holding a nonempty computed path whose node entities
and node positions are pairwise distinct, the per-tick look-ahead step
finds the path node nearest to the agent (searching only the path), and:
if that nearest node is the path's head, no new waypoint is set; otherwise
the look-ahead waypoint is set to the path node immediately before the
nearest one in the stored destination-to-source order, without panicking. -/
theorem set_next_waypoint_lookahead (d : Vec2 → Vec2 → ℚ) (path : List (Waypoint × Nat))
    (pos : Vec2) (nwp : Waypoint) (nid : Nat) (i : Nat)
    (hfind : find_nearest d path pos = some (nwp, nid))
    (hi : path[i]? = some (nwp, nid))
    (hids : (path.map Prod.snd).Nodup)
    (hpos : (path.map (fun p => p.1.pos)).Nodup) :
    (i = 0 → set_next_waypoint d pos path = Except.ok none) ∧
    (∀ j, i = j + 1 → ∃ w, path[j]? = some w ∧
      set_next_waypoint d pos path = Except.ok (some w.1)) := by
  have hlen : i < path.length := by
    rcases List.getElem?_eq_some_iff.mp hi with ⟨h, _⟩
    exact h
  have huniq : ∀ m (w : Waypoint × Nat), path[m]? = some w → w.2 = nid → m = i := by
    intro m w hm hwid
    have h1 : (path.map Prod.snd)[m]? = some nid := by
      rw [List.getElem?_map, hm]
      simp [hwid]
    have h2 : (path.map Prod.snd)[i]? = some nid := by
      rw [List.getElem?_map, hi]
      simp
    rcases List.getElem?_eq_some_iff.mp h1 with ⟨hmlen, _⟩
    exact List.getElem?_inj hmlen hids (h1.trans h2.symm)
  cases path with
  | nil => simp at hi
  | cons p0 rest =>
    constructor
    · intro h0
      subst h0
      have hp0 : p0 = (nwp, nid) := by simpa using hi
      unfold set_next_waypoint
      rw [hfind]
      simp only [List.head?_cons]
      rw [hp0]
      simp
    · intro j hj
      subst hj
      have hjlt : j < (p0 :: rest).length := Nat.lt_of_succ_lt hlen
      obtain ⟨w, hw⟩ : ∃ w, (p0 :: rest)[j]? = some w :=
        ⟨(p0 :: rest).get ⟨j, hjlt⟩, by
          rw [List.getElem?_eq_some_iff]
          exact ⟨hjlt, rfl⟩⟩
      refine ⟨w, hw, ?_⟩
      have hposne : nwp.pos ≠ p0.1.pos := by
        intro heq
        have h1 : ((p0 :: rest).map (fun p => p.1.pos))[j + 1]? = some p0.1.pos := by
          rw [List.getElem?_map, hi]
          simp [heq]
        have h2 : ((p0 :: rest).map (fun p => p.1.pos))[0]? = some p0.1.pos := by
          simp
        have hj1len : j + 1 < ((p0 :: rest).map (fun p => p.1.pos)).length := by
          rw [List.length_map]
          exact hlen
        have := List.getElem?_inj hj1len hpos (h1.trans h2.symm)
        omega
      unfold set_next_waypoint
      rw [hfind]
      simp only [List.head?_cons]
      rw [if_neg hposne]
      have hdecomp : p0 :: rest =
          (p0 :: rest).take (j + 1) ++ (nwp, nid) :: (p0 :: rest).drop (j + 2) := by
        conv_lhs => rw [← List.take_append_drop (j + 1) (p0 :: rest)]
        congr 1
        rw [List.drop_eq_getElem_cons hlen]
        congr 1
        rcases List.getElem?_eq_some_iff.mp hi with ⟨hh, hv⟩
        exact hv
      have hpre : ∀ p ∈ (p0 :: rest).take (j + 1), p.2 ≠ nid := by
        intro p hp hpid
        obtain ⟨m, hm⟩ := List.mem_iff_getElem?.mp hp
        rcases List.getElem?_eq_some_iff.mp hm with ⟨hmlt0, _⟩
        have hmlt : m < j + 1 := by
          have := List.length_take (j + 1) (p0 :: rest)
          omega
        rw [List.getElem?_take, if_pos hmlt] at hm
        have := huniq m p hm hpid
        omega
      have hsuf : ∀ p ∈ (p0 :: rest).drop (j + 2), p.2 ≠ nid := by
        intro p hp hpid
        obtain ⟨m, hm⟩ := List.mem_iff_getElem?.mp hp
        rw [List.getElem?_drop] at hm
        have := huniq (j + 2 + m) p hm hpid
        omega
      have hlast : ((p0 :: rest).take (0 + ((p0 :: rest).take (j + 1)).length)).getLast?
          = some w := by
        have hlen2 : ((p0 :: rest).take (j + 1)).length = j + 1 := by
          rw [List.length_take]
          omega
        rw [Nat.zero_add, hlen2]
        exact getLast?_take_succ _ j w hw
      have hrun := snwLoop_found nid (p0 :: rest) (nwp, nid) w
        ((p0 :: rest).take (j + 1)) ((p0 :: rest).drop (j + 2)) 0 none rfl hpre hsuf hlast
      rw [← hdecomp] at hrun
      exact hrun

unseal Rat.add Rat.sub Rat.mul Rat.inv in
theorem set_next_waypoint_lookahead_witness :
    find_nearest absDist exPath ((0 : ℚ), (4 : ℚ)) = some (⟨(0, 5), []⟩, 4) ∧
    exPath[1]? = some (⟨(0, 5), []⟩, 4) ∧
    ∃ w, exPath[0]? = some w ∧
      set_next_waypoint absDist ((0 : ℚ), (4 : ℚ)) exPath = Except.ok (some w.1) :=
  ⟨rfl, rfl,
    (set_next_waypoint_lookahead absDist exPath ((0 : ℚ), (4 : ℚ)) ⟨(0, 5), []⟩ 4 1 rfl rfl
      (by decide) (by decide)).2 0 rfl⟩

end UnfairBoss
